import Mathlib

/-!
# Verification of `ol/tilegrid` (OpenLayers tile-grid core)

Shallow embedding of `src/ol/tilegrid.js`.  JavaScript numbers are modelled
as rationals (`ℚ`); optional parameters become `Option`; the mutable
default-grid slot on a projection becomes explicit state passing.

The module's collaborators (`ol/extent`, `ol/size`, `ol/proj`,
`ol/tilegrid/common`, the `TileGrid` entity) are not part of the source
under verification; they are modelled from the specification's contract
sections, each marked `Modelled from the spec:` in its doc comment.
-/

namespace OlTilegrid

/-- An axis-aligned extent `(minX, minY, maxX, maxY)` in projected
coordinates, mirroring the 4-element array of `ol/extent`. -/
structure Extent where
  minX : ℚ
  minY : ℚ
  maxX : ℚ
  maxY : ℚ
  deriving DecidableEq, Repr

/-- A 2D point `(x, y)` in projected coordinates. -/
abbrev Coordinate := ℚ × ℚ

/-- A tile coordinate `(zoom, column, row)`, mirroring the 3-element
array of `ol/tilecoord`. -/
structure TileCoord where
  z : ℤ
  x : ℤ
  y : ℤ
  deriving DecidableEq, Repr

/-- Modelled from the spec: `width(extent)` — width = maxX − minX. -/
def getWidth (extent : Extent) : ℚ :=
  extent.maxX - extent.minX

/-- Modelled from the spec: `height(extent)` — height = maxY − minY. -/
def getHeight (extent : Extent) : ℚ :=
  extent.maxY - extent.minY

/-- Modelled from the spec: the closed containment test
`containsPoint(extent, point)` of `ol/extent` (`minX ≤ x ≤ maxX` and
`minY ≤ y ≤ maxY`). -/
def containsCoordinate (extent : Extent) (coordinate : Coordinate) : Prop :=
  extent.minX ≤ coordinate.1 ∧ coordinate.1 ≤ extent.maxX ∧
    extent.minY ≤ coordinate.2 ∧ coordinate.2 ≤ extent.maxY

instance (extent : Extent) (coordinate : Coordinate) :
    Decidable (containsCoordinate extent coordinate) := by
  unfold containsCoordinate; infer_instance

/-- Modelled from the spec: construct an extent from four scalars
(`createOrUpdate` of `ol/extent`, fresh-allocation path). -/
def createOrUpdate (minX minY maxX maxY : ℚ) : Extent :=
  ⟨minX, minY, maxX, maxY⟩

/-- Modelled from the spec: the tagged enumeration of the four extent
corners (`ol/extent/Corner`). -/
inductive Corner
  | bottomLeft
  | bottomRight
  | topLeft
  | topRight
  deriving DecidableEq, Repr

/-- Modelled from the spec: `corner(extent, which) → point`
(`getCorner` of `ol/extent`). -/
def getCorner (extent : Extent) : Corner → Coordinate
  | Corner.bottomLeft => (extent.minX, extent.minY)
  | Corner.bottomRight => (extent.maxX, extent.minY)
  | Corner.topLeft => (extent.minX, extent.maxY)
  | Corner.topRight => (extent.maxX, extent.maxY)

/-- A tile size supplied either as a scalar (square tile) or as an
explicit `(width, height)` pair. -/
inductive SizeLike
  | scalar (s : ℚ)
  | pair (w h : ℚ)
  deriving DecidableEq, Repr

/-- Modelled from the spec: normalize a scalar-or-pair into a
`(width, height)` pair (`toSize` of `ol/size`). -/
def toSize : SizeLike → ℚ × ℚ
  | SizeLike.scalar s => (s, s)
  | SizeLike.pair w h => (w, h)

/-- Modelled from the spec: the fixed constant `DEFAULT_MAX_ZOOM` of
`ol/tilegrid/common` (the repository's conventional value is 42; the
claims use it only symbolically). -/
def DEFAULT_MAX_ZOOM : ℕ := 42

/-- Modelled from the spec: the fixed constant `DEFAULT_TILE_SIZE` of
`ol/tilegrid/common` (the repository's conventional value is 256). -/
def DEFAULT_TILE_SIZE : ℚ := 256

/-- Modelled from the spec: the physical constant meters-per-degree at the
equator, `METERS_PER_UNIT[Units.DEGREES]` of `ol/proj` (the repository
computes `2·π·6378137/360` in floating point; modelled as a fixed
rational). -/
def METERS_PER_UNIT_DEGREES : ℚ := 111319.49079327358

/-- Modelled from the spec: the extent of the well-known global
EPSG:3857 (spherical-Mercator) projection, ±20037508.342789244 on both
axes, used by `createXYZ` as the default extent. -/
def EPSG3857_EXTENT : Extent :=
  createOrUpdate (-20037508.342789244) (-20037508.342789244)
    20037508.342789244 20037508.342789244

/-- The configuration record passed to the `TileGrid` constructor
(`{extent, origin, resolutions, tileSize}`; `createXYZ` also carries a
`maxZoom` option through its internal copy before deleting it).  The
`TileGrid` entity itself is an external collaborator; the factory
functions are verified up to the options they hand it. -/
structure TileGridOptions where
  extent : Option Extent := none
  origin : Option Coordinate := none
  resolutions : Option (List ℚ) := none
  tileSize : Option SizeLike := none
  maxZoom : Option ℕ := none
  deriving DecidableEq, Repr

/-- Modelled from the spec: the `TileGrid` collaborator as a black box
exposing the two coordinate queries `tileCoordCenter` and
`tileCoordForCoordAndZ` consumed by `wrapX`. -/
structure TileGrid where
  getTileCoordCenter : TileCoord → Coordinate
  getTileCoordForCoordAndZ : Coordinate → ℤ → TileCoord

/-- A projection collaborator: optional native extent, meters-per-unit
factor, and the lazily populated default-tile-grid slot.  The mutable
slot is modelled by explicit state passing (`getForProjection` returns
the updated projection).  `ProjectionLike` resolution through the
registry is identity on instances, so functions take `Projection`
directly. -/
structure Projection where
  extent : Option Extent
  metersPerUnit : ℚ
  defaultTileGrid : Option TileGridOptions := none
  deriving DecidableEq, Repr

/-- `extentFromProjection` from `src/ol/tilegrid.js`: the projection's
declared extent if any, otherwise the synthesized global square of
half-edge `180 · METERS_PER_UNIT[degrees] / metersPerUnit`. -/
def extentFromProjection (projection : Projection) : Extent :=
  match projection.extent with
  | some extent => extent
  | none =>
    let half := 180 * METERS_PER_UNIT_DEGREES / projection.metersPerUnit
    createOrUpdate (-half) (-half) half half

/-- `resolutionsFromExtent` from `src/ol/tilegrid.js`: the resolution
pyramid `maxResolution / 2^z` for `z = 0 .. maxZoom`, where
`maxResolution = max(width/tileWidth, height/tileHeight)`. -/
def resolutionsFromExtent (extent : Extent) (optMaxZoom : Option ℕ)
    (optTileSize : Option SizeLike) : List ℚ :=
  let maxZoom := optMaxZoom.getD DEFAULT_MAX_ZOOM
  let height := getHeight extent
  let width := getWidth extent
  let tileSize := toSize (optTileSize.getD (SizeLike.scalar DEFAULT_TILE_SIZE))
  let maxResolution := max (width / tileSize.1) (height / tileSize.2)
  let length := maxZoom + 1
  (List.range length).map (fun z => maxResolution / 2 ^ z)

/-- `createForExtent` from `src/ol/tilegrid.js`: corner defaults to
top-left; origin is the selected corner; resolutions come from
`resolutionsFromExtent`. -/
def createForExtent (extent : Extent) (optMaxZoom : Option ℕ)
    (optTileSize : Option SizeLike) (optCorner : Option Corner) :
    TileGridOptions :=
  let corner := optCorner.getD Corner.topLeft
  let resolutions := resolutionsFromExtent extent optMaxZoom optTileSize
  { extent := some extent
    origin := some (getCorner extent corner)
    resolutions := some resolutions
    tileSize := optTileSize }

/-- `createForProjection` from `src/ol/tilegrid.js`: resolve the extent,
then delegate to `createForExtent`. -/
def createForProjection (projection : Projection) (optMaxZoom : Option ℕ)
    (optTileSize : Option SizeLike) (optCorner : Option Corner) :
    TileGridOptions :=
  let extent := extentFromProjection projection
  createForExtent extent optMaxZoom optTileSize optCorner

/-- `createXYZ` from `src/ol/tilegrid.js`: shallow-copy the options,
default the extent to the EPSG:3857 global extent, compute resolutions,
then delete `maxZoom` from the internal copy. -/
def createXYZ (optOptions : Option TileGridOptions) : TileGridOptions :=
  let options := optOptions.getD {}
  let ext := match options.extent with
    | some e => e
    | none => EPSG3857_EXTENT
  let options := { options with extent := some ext }
  let options := { options with
    resolutions := some (resolutionsFromExtent ext options.maxZoom options.tileSize)
    maxZoom := none }
  options

/-- `getForProjection` from `src/ol/tilegrid.js`: return the projection's
cached default grid, or compute one via `createForProjection` with all
defaults and store it.  The write to the projection's slot is returned as
the second component. -/
def getForProjection (projection : Projection) :
    TileGridOptions × Projection :=
  match projection.defaultTileGrid with
  | some tileGrid => (tileGrid, projection)
  | none =>
    let tileGrid := createForProjection projection none none none
    (tileGrid, { projection with defaultTileGrid := some tileGrid })

/-- `wrapX` from `src/ol/tilegrid.js`: if the tile's center is inside the
projection extent, return the input tile coordinate; otherwise shift the
center's X by `worldWidth · ceil((minX − centerX)/worldWidth)` and
re-derive the tile coordinate at the same zoom. -/
def wrapX (tileGrid : TileGrid) (tileCoord : TileCoord)
    (projection : Projection) : TileCoord :=
  let z := tileCoord.z
  let center := tileGrid.getTileCoordCenter tileCoord
  let projectionExtent := extentFromProjection projection
  if ¬ containsCoordinate projectionExtent center then
    let worldWidth := getWidth projectionExtent
    let worldsAway : ℤ :=
      Int.ceil ((projectionExtent.minX - center.1) / worldWidth)
    let center : Coordinate := (center.1 + worldWidth * worldsAway, center.2)
    tileGrid.getTileCoordForCoordAndZ center z
  else
    tileCoord

/-- Test fixture: a projection whose declared extent is `(0, 0, 2, 2)`
(world width 2), with unit meters-per-unit and an empty default-grid
slot. -/
def projFixture : Projection :=
  ⟨some ⟨0, 0, 2, 2⟩, 1, none⟩

/-- Test fixture: a black-box grid over the extent `(0, 0, 2, 2)`.  Tiles
in negative columns have center `(-1, 1)` (one world-width left of the
extent), tiles in negative rows have center `(1, 3)` (above the extent),
all others have center `(1, 1)`; the coordinate query always answers
tile `(z, 0, 0)`. -/
def gridFixture : TileGrid :=
  ⟨fun t => if t.x < 0 then (-1, 1) else if t.y < 0 then (1, 3) else (1, 1),
    fun _ z => ⟨z, 0, 0⟩⟩

/-- The resolution pyramid is the map of `z ↦ maxResolution / 2^z` over
`range (maxZoom + 1)`. -/
lemma resolutionsFromExtent_eq (extent : Extent) (optMaxZoom : Option ℕ)
    (optTileSize : Option SizeLike) :
    resolutionsFromExtent extent optMaxZoom optTileSize =
      (List.range (optMaxZoom.getD DEFAULT_MAX_ZOOM + 1)).map
        (fun z =>
          max (getWidth extent /
                (toSize (optTileSize.getD (SizeLike.scalar DEFAULT_TILE_SIZE))).1)
              (getHeight extent /
                (toSize (optTileSize.getD (SizeLike.scalar DEFAULT_TILE_SIZE))).2)
            / 2 ^ z) := rfl

/-- C1: for an extent of positive width and height, maxZoom `m` and a
(positive, pixel-valued) tile size `(tw, th)`, `resolutionsFromExtent`
returns a sequence of length `m + 1` with `resolution[z] =
max(width/tw, height/th) / 2^z` for every `z ≤ m`; in particular
`resolution[0]` is `max(width/tw, height/th)` and the sequence is
strictly decreasing. -/
theorem resolutionsFromExtent_correct (E : Extent) (m : ℕ) (tw th : ℚ)
    (hw : 0 < getWidth E) (hh : 0 < getHeight E)
    (htw : 0 < tw) (hth : 0 < th) :
    (resolutionsFromExtent E (some m) (some (SizeLike.pair tw th))).length = m + 1 ∧
    (∀ z, z ≤ m →
      (resolutionsFromExtent E (some m) (some (SizeLike.pair tw th))).get? z =
        some (max (getWidth E / tw) (getHeight E / th) / 2 ^ z)) ∧
    (resolutionsFromExtent E (some m) (some (SizeLike.pair tw th))).get? 0 =
      some (max (getWidth E / tw) (getHeight E / th)) ∧
    (resolutionsFromExtent E (some m) (some (SizeLike.pair tw th))).Chain'
      (fun a b => b < a) := by
  have hL : 0 < max (getWidth E / tw) (getHeight E / th) :=
    lt_max_of_lt_left (div_pos hw htw)
  rw [resolutionsFromExtent_eq]
  simp only [Option.getD_some, toSize]
  refine ⟨by simp, ?_, ?_, ?_⟩
  · intro z hz
    rw [List.get?_map, List.get?_range (by omega)]
    rfl
  · rw [List.get?_map, List.get?_range (by omega)]
    simp
  · rw [List.chain'_map, List.chain'_range_succ]
    intro i _
    exact div_lt_div_of_pos_left hL (by positivity) (by
      have : (2:ℚ) ^ i < 2 ^ (i + 1) := by
        exact pow_lt_pow_right₀ (by norm_num) (Nat.lt_succ_self i)
      exact this)

/-- Witness for C1 at `E = (0,0,2,4)`, `m = 2`, tile size `(1,2)`. -/
theorem resolutionsFromExtent_correct_witness :
    (0 < getWidth ⟨0, 0, 2, 4⟩ ∧ 0 < getHeight ⟨0, 0, 2, 4⟩ ∧
      (0:ℚ) < 1 ∧ (0:ℚ) < 2) ∧
    (resolutionsFromExtent ⟨0, 0, 2, 4⟩ (some 2)
        (some (SizeLike.pair 1 2))).length = 2 + 1 ∧
    (resolutionsFromExtent ⟨0, 0, 2, 4⟩ (some 2)
        (some (SizeLike.pair 1 2))).get? 0 =
      some (max (getWidth ⟨0, 0, 2, 4⟩ / 1) (getHeight ⟨0, 0, 2, 4⟩ / 2)) :=
  ⟨⟨by simp [getWidth], by simp [getHeight], by simp, by simp⟩,
    (resolutionsFromExtent_correct ⟨0, 0, 2, 4⟩ 2 1 2
      (by simp [getWidth]) (by simp [getHeight]) (by simp) (by simp)).1,
    (resolutionsFromExtent_correct ⟨0, 0, 2, 4⟩ 2 1 2
      (by simp [getWidth]) (by simp [getHeight]) (by simp) (by simp)).2.2.1⟩

/-- C9: a degenerate extent with zero width and zero height is not
rejected: for every maxZoom `m` and every tile size, the returned
sequence still has length `m + 1` and all of its entries are zero
(`level0 = 0`).  The function is total, so no error can be raised. -/
theorem resolutionsFromExtent_degenerate (E : Extent) (m : ℕ)
    (ts : Option SizeLike)
    (hw : getWidth E = 0) (hh : getHeight E = 0) :
    ((resolutionsFromExtent E (some m) ts).length = m + 1 ∧
      ∀ r ∈ resolutionsFromExtent E (some m) ts, r = 0) ∧
    (∀ E' : Extent, ∀ z : ℕ, z ≤ m →
      (resolutionsFromExtent E' (some m) ts).get? z =
        some (max
          (getWidth E' /
            (toSize (ts.getD (SizeLike.scalar DEFAULT_TILE_SIZE))).1)
          (getHeight E' /
            (toSize (ts.getD (SizeLike.scalar DEFAULT_TILE_SIZE))).2) /
          2 ^ z)) := by
  constructor
  · rw [resolutionsFromExtent_eq]
    refine ⟨by simp, ?_⟩
    intro r hr
    simp only [List.mem_map, List.mem_range] at hr
    obtain ⟨z, _, hz⟩ := hr
    rw [hw, hh] at hz
    simpa using hz.symm
  · intro E' z hz
    rw [resolutionsFromExtent_eq]
    rw [List.get?_map, List.get?_range (by simp only [Option.getD_some]; omega)]
    rfl

/-- Witness for C9 at the point extent `(1,1,1,1)`, `m = 3`, default
tile size. -/
theorem resolutionsFromExtent_degenerate_witness :
    (getWidth ⟨1, 1, 1, 1⟩ = 0 ∧ getHeight ⟨1, 1, 1, 1⟩ = 0) ∧
    (resolutionsFromExtent ⟨1, 1, 1, 1⟩ (some 3) none).length = 3 + 1 :=
  ⟨⟨by simp [getWidth], by simp [getHeight]⟩,
    (resolutionsFromExtent_degenerate ⟨1, 1, 1, 1⟩ 3 none
      (by simp [getWidth]) (by simp [getHeight])).1.1⟩

/-- C4: `extentFromProjection` returns a declared extent unchanged, and
synthesizes the square `(−half, −half, half, half)` with
`half = 180 · metersPerDegree / metersPerUnit` when no extent is
declared. -/
theorem extentFromProjection_correct (p : Projection) :
    (∀ e : Extent, p.extent = some e → extentFromProjection p = e) ∧
    (p.extent = none →
      extentFromProjection p =
        createOrUpdate
          (-(180 * METERS_PER_UNIT_DEGREES / p.metersPerUnit))
          (-(180 * METERS_PER_UNIT_DEGREES / p.metersPerUnit))
          (180 * METERS_PER_UNIT_DEGREES / p.metersPerUnit)
          (180 * METERS_PER_UNIT_DEGREES / p.metersPerUnit)) := by
  constructor
  · intro e he
    simp [extentFromProjection, he]
  · intro he
    simp [extentFromProjection, he]

/-- Witness for C4: one projection with a declared extent, one without. -/
theorem extentFromProjection_correct_witness :
    extentFromProjection ⟨some ⟨0, 0, 2, 2⟩, 1, none⟩ = ⟨0, 0, 2, 2⟩ ∧
    extentFromProjection ⟨none, 1, none⟩ =
      createOrUpdate (-(180 * METERS_PER_UNIT_DEGREES / 1))
        (-(180 * METERS_PER_UNIT_DEGREES / 1))
        (180 * METERS_PER_UNIT_DEGREES / 1)
        (180 * METERS_PER_UNIT_DEGREES / 1) :=
  ⟨(extentFromProjection_correct ⟨some ⟨0, 0, 2, 2⟩, 1, none⟩).1
      ⟨0, 0, 2, 2⟩ rfl,
    (extentFromProjection_correct ⟨none, 1, none⟩).2 rfl⟩

/-- C5: `createForExtent E m ts corner` yields a grid configuration whose
extent is `E`, whose origin is the selected corner of `E`, and whose
resolutions are `resolutionsFromExtent E m ts`; an omitted corner
defaults to the extent's top-left corner. -/
theorem createForExtent_correct (E : Extent) (m : Option ℕ)
    (ts : Option SizeLike) (c : Corner) :
    (createForExtent E m ts (some c)).extent = some E ∧
    (createForExtent E m ts (some c)).origin = some (getCorner E c) ∧
    (createForExtent E m ts (some c)).resolutions =
      some (resolutionsFromExtent E m ts) ∧
    createForExtent E m ts none =
      createForExtent E m ts (some Corner.topLeft) :=
  ⟨rfl, rfl, rfl, rfl⟩

/-- C8: `createForProjection p m ts c` is exactly
`createForExtent (extentFromProjection p) m ts c`; with the corner
omitted, the resulting origin is the top-left corner of the resolved
extent (the default inherited from `createForExtent`), not bottom-left. -/
theorem createForProjection_correct (p : Projection) (m : Option ℕ)
    (ts : Option SizeLike) (c : Option Corner) :
    createForProjection p m ts c =
      createForExtent (extentFromProjection p) m ts c ∧
    (createForProjection p m ts none).origin =
      some (getCorner (extentFromProjection p) Corner.topLeft) ∧
    (createForProjection p m ts none).origin =
      some (extentFromProjection p |>.minX, extentFromProjection p |>.maxY) :=
  ⟨rfl, rfl, rfl⟩

/-- C7: `createXYZ` with no options (and with an empty options object,
which behaves identically) yields a grid configuration whose extent is
the EPSG:3857 global extent, whose resolution pyramid has length
`DEFAULT_MAX_ZOOM + 1`, and on which the consumed `maxZoom` option is
not stored. -/
theorem createXYZ_default_correct :
    (createXYZ none).extent = some EPSG3857_EXTENT ∧
    Option.map List.length (createXYZ none).resolutions =
      some (DEFAULT_MAX_ZOOM + 1) ∧
    (createXYZ none).maxZoom = none ∧
    createXYZ (some {}) = createXYZ none := by
  refine ⟨rfl, ?_, rfl, rfl⟩
  simp [createXYZ, resolutionsFromExtent_eq]

/-- C6: `getForProjection` stores the lazily computed default grid on the
projection; a second call returns the same grid and leaves the projection
unchanged (so every projection holds at most one default grid), a first
call on an uncached projection computes the grid via `createForProjection`
with all defaults, and a call on a cached projection returns exactly the
stored grid. -/
theorem getForProjection_caching (p : Projection) :
    (getForProjection (getForProjection p).2).1 = (getForProjection p).1 ∧
    (getForProjection (getForProjection p).2).2 = (getForProjection p).2 ∧
    (getForProjection p).2.defaultTileGrid = some (getForProjection p).1 ∧
    (p.defaultTileGrid = none →
      (getForProjection p).1 = createForProjection p none none none) ∧
    (∀ tg : TileGridOptions, p.defaultTileGrid = some tg →
      (getForProjection p).1 = tg) := by
  cases hp : p.defaultTileGrid with
  | some tg => simp [getForProjection, hp]
  | none => simp [getForProjection, hp]

/-- Witness for C6 at an uncached projection: the first call computes the
grid, and the second call returns the same grid and state. -/
theorem getForProjection_caching_witness :
    (getForProjection projFixture).1 =
      createForProjection projFixture none none none ∧
    (getForProjection (getForProjection projFixture).2).1 =
      (getForProjection projFixture).1 ∧
    (getForProjection (getForProjection projFixture).2).2 =
      (getForProjection projFixture).2 :=
  ⟨(getForProjection_caching projFixture).2.2.2.1 rfl,
    (getForProjection_caching projFixture).1,
    (getForProjection_caching projFixture).2.1⟩

/-- C3: when the tile's center lies inside the projection extent (closed
containment), `wrapX` returns the input tile coordinate unchanged. -/
theorem wrapX_inside (g : TileGrid) (tc : TileCoord) (p : Projection)
    (h : containsCoordinate (extentFromProjection p)
      (g.getTileCoordCenter tc)) :
    wrapX g tc p = tc := by
  simp [wrapX, h]

/-- Witness for C3: a tile of the fixture grid whose center `(1, 1)` lies
inside the fixture projection's extent `(0, 0, 2, 2)`. -/
theorem wrapX_inside_witness :
    wrapX gridFixture ⟨0, 0, 0⟩ projFixture = ⟨0, 0, 0⟩ :=
  wrapX_inside gridFixture ⟨0, 0, 0⟩ projFixture
    (by norm_num [containsCoordinate, extentFromProjection, projFixture,
      gridFixture])

/-- C2: when the tile's center lies outside the projection extent,
`wrapX` shifts the center's X by `worldWidth · ⌈(minX − centerX) /
worldWidth⌉` (Y unchanged) and re-derives the tile coordinate at the
same zoom; and when the center lies exactly one world-width to the left
of the extent (vertically inside), the result — for any grid whose
coordinate queries respect the extent and the zoom — is at the same zoom
level and its recomputed center lies inside the extent. -/
theorem wrapX_outside (g : TileGrid) (tc : TileCoord) (p : Projection)
    (E : Extent) (c : Coordinate)
    (hE : extentFromProjection p = E)
    (hc : g.getTileCoordCenter tc = c) :
    (¬ containsCoordinate E c →
      wrapX g tc p =
        g.getTileCoordForCoordAndZ
          (c.1 + getWidth E * Int.ceil ((E.minX - c.1) / getWidth E), c.2)
          tc.z) ∧
    (0 < getWidth E → c.1 < E.minX → E.minX ≤ c.1 + getWidth E →
      c.1 + getWidth E ≤ E.maxX → E.minY ≤ c.2 → c.2 ≤ E.maxY →
      (∀ q z, containsCoordinate E q →
        containsCoordinate E
          (g.getTileCoordCenter (g.getTileCoordForCoordAndZ q z))) →
      (∀ q z, (g.getTileCoordForCoordAndZ q z).z = z) →
      (wrapX g tc p).z = tc.z ∧
        containsCoordinate E (g.getTileCoordCenter (wrapX g tc p))) := by
  have hformula : ¬ containsCoordinate E c →
      wrapX g tc p =
        g.getTileCoordForCoordAndZ
          (c.1 + getWidth E * Int.ceil ((E.minX - c.1) / getWidth E), c.2)
          tc.z := by
    intro hout
    simp [wrapX, hE, hc, hout]
  refine ⟨hformula, ?_⟩
  intro hW hlt hge hle hyl hyu hround hz
  have hout : ¬ containsCoordinate E c := fun hcont =>
    absurd hcont.1 (not_le.mpr hlt)
  have hceil : Int.ceil ((E.minX - c.1) / getWidth E) = 1 := by
    rw [Int.ceil_eq_iff]
    constructor
    · push_cast
      have : (0:ℚ) < (E.minX - c.1) / getWidth E :=
        div_pos (by linarith) hW
      linarith
    · push_cast
      rw [div_le_one hW]
      linarith
  have hwrap : wrapX g tc p =
      g.getTileCoordForCoordAndZ (c.1 + getWidth E, c.2) tc.z := by
    rw [hformula hout, hceil]
    norm_num
  have hin : containsCoordinate E (c.1 + getWidth E, c.2) :=
    ⟨hge, hle, hyl, hyu⟩
  rw [hwrap]
  exact ⟨hz _ _, hround _ _ hin⟩

/-- Witness for C2: the fixture tile with center `(-1, 1)`, one
world-width (2) to the left of the fixture extent `(0, 0, 2, 2)`; the
wrapped result is tile `(5, 0, 0)` with center `(1, 1)` inside the
extent. -/
theorem wrapX_outside_witness :
    (wrapX gridFixture ⟨5, -1, 0⟩ projFixture).z = 5 ∧
    containsCoordinate ⟨0, 0, 2, 2⟩
      (gridFixture.getTileCoordCenter
        (wrapX gridFixture ⟨5, -1, 0⟩ projFixture)) :=
  (wrapX_outside gridFixture ⟨5, -1, 0⟩ projFixture ⟨0, 0, 2, 2⟩ (-1, 1)
      rfl rfl).2
    (by norm_num [getWidth]) (by norm_num) (by norm_num [getWidth])
    (by norm_num [getWidth]) (by norm_num) (by norm_num)
    (fun q z _ => by norm_num [gridFixture, containsCoordinate])
    (fun q z => rfl)

/-- C10: when the center is outside the extent only vertically (its X in
`[minX, maxX)`, its Y outside the vertical range), `wrapX` still takes
the wrap branch but with `worldsAway = 0`: the center is left unshifted
(Y never adjusted) and the grid's freshly derived tile coordinate for
that same center at the same zoom is returned. -/
theorem wrapX_verticalOutside (g : TileGrid) (tc : TileCoord)
    (p : Projection) (E : Extent) (c : Coordinate)
    (hE : extentFromProjection p = E)
    (hc : g.getTileCoordCenter tc = c)
    (hW : 0 < getWidth E)
    (hx1 : E.minX ≤ c.1) (hx2 : c.1 < E.maxX)
    (hy : c.2 < E.minY ∨ E.maxY < c.2) :
    Int.ceil ((E.minX - c.1) / getWidth E) = 0 ∧
    wrapX g tc p = g.getTileCoordForCoordAndZ c tc.z := by
  have hout : ¬ containsCoordinate E c := by
    rintro ⟨-, -, h3, h4⟩
    rcases hy with h | h
    · exact absurd h3 (not_le.mpr h)
    · exact absurd h4 (not_le.mpr h)
  have hceil : Int.ceil ((E.minX - c.1) / getWidth E) = 0 := by
    rw [Int.ceil_eq_iff]
    have hWeq : getWidth E = E.maxX - E.minX := rfl
    constructor
    · push_cast
      rw [lt_div_iff hW]
      linarith
    · push_cast
      exact div_nonpos_of_nonpos_of_nonneg (by linarith) (le_of_lt hW)
  refine ⟨hceil, ?_⟩
  have : wrapX g tc p =
      g.getTileCoordForCoordAndZ
        (c.1 + getWidth E * Int.ceil ((E.minX - c.1) / getWidth E), c.2)
        tc.z := by
    simp [wrapX, hE, hc, hout]
  rw [this, hceil]
  norm_num

/-- Witness for C10: the fixture tile with center `(1, 3)` — X inside
`[0, 2)`, Y above the extent — wraps with `worldsAway = 0` to the freshly
derived tile `(2, 0, 0)`. -/
theorem wrapX_verticalOutside_witness :
    Int.ceil ((Extent.minX ⟨0, 0, 2, 2⟩ - (1:ℚ)) / getWidth ⟨0, 0, 2, 2⟩) = 0 ∧
    wrapX gridFixture ⟨2, 0, -1⟩ projFixture =
      gridFixture.getTileCoordForCoordAndZ (1, 3) 2 :=
  wrapX_verticalOutside gridFixture ⟨2, 0, -1⟩ projFixture ⟨0, 0, 2, 2⟩
    (1, 3) rfl rfl (by norm_num [getWidth]) (by norm_num) (by norm_num)
    (Or.inr (by norm_num))

end OlTilegrid
